import Mathlib

/-!
# smugmug-backup: a shallow embedding of the download engine

The development follows the Go package `smugmug`:

* `http.go`   : `maxRetries`, `handler.makeAPICall`, `handler.download`
* `file.go`   : `createFolder`, `checkDestFolder`, `sameFileSizes`
* `json_structs.go` : `albumImage`, `buildFilename`, `buildFilenameUnique`, `Name`, `NameUnique`
* `smugmug.go` : `Conf.validate`, `New`, `buildFilenameTemplate`,
  `buildUniqueFilenameTemplate`, `Worker.Run`

Everything the Go code reaches through the operating system, the network or the
standard library is made explicit: the file system and the HTTP transport are
values that are passed in and returned, and each function reports the calls it
made in a trace.
-/

set_option linter.unusedVariables false

namespace Smugmug

/-! ## Control outcomes -/

/-- How a Go function call ends: it returns a value, the goroutine panics, or
`log.Fatal` terminates the process. -/
inductive Outcome (α : Type) where
  | returned (a : α)
  | panicked (msg : String)
  | exited (msg : String)
  deriving Repr, DecidableEq

/-! ## http.go : the API client -/

/-- The constant of http.go:16: number of http calls before giving up. -/
def maxRetries : Nat := 3

/-- A response body seen as a stream: the bytes it delivers, then either a clean
end of stream (`readErr = none`) or a read error. -/
structure Body where
  data : List UInt8
  readErr : Option String
  deriving Repr, DecidableEq

/-- The fields of `http.Response` the package reads. -/
structure Response where
  StatusCode : Int
  Status : String
  Body : Body
  deriving Repr, DecidableEq

/-- What `client.Do(req)` hands back for one attempt: a transport error, or a response. -/
inductive DoResult where
  | transportError (err : String)
  | response (r : Response)
  deriving Repr, DecidableEq

/-- The network as seen by `makeAPICall`, indexed by url and by the loop counter `i`.
`newRequest url` tells whether `http.NewRequest` yields a request (its error is
dropped at http.go:122, so a nil request reaches `addHeaders`); `sign url i` is the
external `oauth.authorizationHeader`; `client url i` is the outcome of `client.Do`. -/
structure Net where
  newRequest : String → Bool
  sign : String → Nat → Except String String
  client : String → Nat → DoResult

/-- Observable steps of `makeAPICall`: a dispatched request (attempt number `i`) and
a call of `time.Sleep` with the given number of seconds. -/
inductive Event where
  | attempt (i : Nat)
  | sleep (seconds : Nat)
  deriving Repr, DecidableEq

/-- Local variables of `makeAPICall` together with what it did so far. -/
structure CallState where
  resp : Option Response
  errorsList : List String
  events : List Event
  logged : List String
  deriving Repr, DecidableEq

/-- The body of the `for i := 1; i <= maxRetries; i++` loop of http.go:121-171, run over the
remaining values of `i`. The empty list is the exit through the loop condition, which
falls to `return resp, nil` at http.go:172. -/
def makeAPICallLoop (net : Net) (url : String) :
    List Nat → CallState → Outcome (Option Response × Option String) × CallState
  | [], st => (.returned (st.resp, none), st)
  | i :: rest, st =>
    match net.sign url i with
    | .error e => (.panicked e, st)
    | .ok _ =>
      if net.newRequest url = false then
        (.panicked "invalid memory address or nil pointer dereference", st)
      else
        let st := { st with events := st.events ++ [Event.attempt i] }
        match net.client url i with
        | .transportError err =>
          let st := { st with errorsList := st.errorsList ++ [err] }
          if i ≥ maxRetries then
            (.returned (none, some "Too many errors"),
              { st with logged := st.logged ++ st.errorsList })
          else
            makeAPICallLoop net url rest { st with events := st.events ++ [Event.sleep 2] }
        | .response r =>
          if r.StatusCode ≥ 400 then
            let st := { st with errorsList := st.errorsList ++ [r.Status] }
            if i ≥ maxRetries then
              (.returned (none, some "Too many errors"),
                { st with logged := st.logged ++ st.errorsList })
            else if r.StatusCode = 429 then
              makeAPICallLoop net url rest { st with events := st.events ++ [Event.sleep 10] }
            else
              makeAPICallLoop net url rest st
          else
            let st := { st with resp := some r }
            (.returned (st.resp, none), st)

/-- The function `handler.makeAPICall` of http.go:116: the loop over `i = 1 .. maxRetries`. -/
def makeAPICall (net : Net) (url : String) :
    Outcome (Option Response × Option String) × CallState :=
  makeAPICallLoop net url (List.range' 1 maxRetries)
    { resp := none, errorsList := [], events := [], logged := [] }

/-- An attempt that makes the loop go on (or give up): a transport error, or a status `≥ 400`. -/
def DoResult.failed : DoResult → Bool
  | .transportError _ => true
  | .response r => decide (r.StatusCode ≥ 400)

/-! ## file.go and the file system -/

/-- The local disk and the network, as `download` sees them. `files p` is the content
of the file at path `p` when `os.Stat p` succeeds; `createErr p` is the error of
`os.Create p`, if any; `writeErr p = some (n, e)` says that writes to `p` fail with `e`
once `n` bytes went through. `apiCalls` lists the urls `makeAPICall` was called with and
`log` records every request and pause of the API client, tagged with the url. -/
structure World where
  files : String → Option (List UInt8)
  createErr : String → Option String
  writeErr : String → Option (Nat × String)
  net : Net
  apiCalls : List String
  log : List (String × Event)

/-- The part of `os.FileInfo` that is read: `Size()`, an int64. -/
structure FileInfo where
  size : Int
  deriving Repr, DecidableEq

/-- The call `os.Stat(path)`. -/
def osStat (w : World) (path : String) : Except String FileInfo :=
  match w.files path with
  | some content => .ok { size := (content.length : Int) }
  | none => .error ("stat " ++ path ++ ": no such file or directory")

/-- The function `sameFileSizes` of file.go:48: `log.Fatal` when the file cannot be inspected. -/
def sameFileSizes (w : World) (path : String) (fileSize : Int) : Outcome Bool :=
  match osStat w path with
  | .error e => .exited e
  | .ok fi => .returned (decide (fi.size = fileSize))

/-- Replace the content stored at one path. -/
def writeFile (files : String → Option (List UInt8)) (path : String) (content : List UInt8) :
    String → Option (List UInt8) :=
  fun p => if p = path then some content else files p

/-- The call `io.Copy(file, body)`: what reaches the file, and the error returned. -/
def ioCopy (limit : Option (Nat × String)) (body : Body) : List UInt8 × Option String :=
  match limit with
  | some (n, e) =>
    if n < body.data.length then (body.data.take n, some e) else (body.data, body.readErr)
  | none => (body.data, body.readErr)

/-- Lines http.go:66-88 of `download`: fetch the url and store the body at `dest`. -/
def downloadFetch (w : World) (dest downloadURL : String) :
    Outcome (Bool × Option String) × World :=
  let call := makeAPICall w.net downloadURL
  let w := { w with apiCalls := w.apiCalls ++ [downloadURL],
                    log := w.log ++ call.2.events.map (fun e => (downloadURL, e)) }
  match call.1 with
  | .panicked m => (.panicked m, w)
  | .exited m => (.exited m, w)
  | .returned (_, some err) =>
    (.returned (false, some (downloadURL ++ ": download failed with: " ++ err)), w)
  | .returned (none, none) =>
    (.panicked "invalid memory address or nil pointer dereference", w)
  | .returned (some response, none) =>
    match w.createErr dest with
    | some err => (.returned (false, some (dest ++ ": file creation failed with: " ++ err)), w)
    | none =>
      let w := { w with files := writeFile w.files dest [] }
      let copied := ioCopy (w.writeErr dest) response.Body
      let w := { w with files := writeFile w.files dest copied.1 }
      match copied.2 with
      | some err =>
        (.returned (false, some (dest ++ ": file content copy failed with: " ++ err)), w)
      | none => (.returned (true, none), w)

/-- The function `handler.download` of http.go:44. -/
def download (w : World) (dest destUnique downloadURL : String) (fileSize : Int)
    (md5sum : String) : Outcome (Bool × Option String) × World :=
  match osStat w dest with
  | .ok _ =>
    match sameFileSizes w dest fileSize with
    | .panicked m => (.panicked m, w)
    | .exited m => (.exited m, w)
    | .returned true => (.returned (false, none), w)
    | .returned false =>
      let dest := destUnique
      match osStat w dest with
      | .ok _ =>
        match sameFileSizes w dest fileSize with
        | .panicked m => (.panicked m, w)
        | .exited m => (.exited m, w)
        | .returned true => (.returned (false, none), w)
        | .returned false => downloadFetch w dest downloadURL
      | .error _ => downloadFetch w dest downloadURL
  | .error _ => downloadFetch w dest downloadURL


/-- The attempt numbers dispatched during a call, in order. -/
def attemptsMade (st : CallState) : List Nat :=
  st.events.filterMap (fun e => match e with
    | .attempt i => some i
    | .sleep _ => none)

/-! ## json_structs.go : media items and their file names -/

/-- The struct `albumImage` of json_structs.go:66. The nested `Uris` struct is flattened and
the `fileDatetime` timestamp, which no function below reads, is left out. -/
structure albumImage where
  AlbumPath : String
  FileName : String
  ImageKey : String
  ArchivedMD5 : String
  ArchivedSize : Int
  ArchivedUri : String
  IsVideo : Bool
  Processing : Bool
  UploadKey : String
  DateTimeOriginal : String
  ImageMetadataUri : String
  LargestVideoUri : String
  builtFilename : String
  builtFilenameUnique : String
  deriving Repr, DecidableEq

/-- The map `replacementVars` built at json_structs.go:92-97 and 112-117. -/
def replacementVars (a : albumImage) : String → Option String := fun key =>
  if key = "FileName" then some a.FileName
  else if key = "ImageKey" then some a.ImageKey
  else if key = "ArchivedMD5" then some a.ArchivedMD5
  else if key = "UploadKey" then some a.UploadKey
  else none

/-- The keys of `replacementVars`. -/
def knownFields : List String := ["FileName", "ImageKey", "ArchivedMD5", "UploadKey"]

/-! ### The template engine

Both `json_structs.go` and `smugmug.go` import `html/template`, which escapes by context:
it follows the markup in the template text, chooses the escaper of each action from the
context the action stands in, rewrites text, and fails when the text leaves it in a
context it cannot escape. The context is HTML text at the start and only a `<` in the
template text changes it. The parse tree is therefore represented in two parts.

* The nodes the package and its tests use, plus the conditional, are represented as
  such: literal text without `<`, a field action, the call of `appendFileName` on two
  fields, and `if .Field ... else ... end`. Text without `<` is written as it is and
  keeps the context at HTML text, where the value of every action is piped through the
  HTML escaper before it is written.
* Everything else is a node `other run`: text with markup, and every action or block of
  another kind (pipelines with functions such as `or` and `and`, `with`, `range`,
  `template`, variables). What the library does with it on the given data, the text it
  writes or the error it stops with, is the function `run`, about which nothing is
  assumed. A template that is outside the first part as a whole is the single node
  `other run`; in a list with nodes of the first part, `other` stands for a piece that
  leaves the context at HTML text.
-/

/-- One node of a parsed template. -/
inductive Node where
  | text (s : String) (noMarkup : '<' ∉ s.data)
  | field (name : String)
  | appendFileName (fileName imageKey : String)
  | ifField (cond : String) (thenBranch elseBranch : List Node)
  | other (run : (String → Option String) → Except String String)

/-- A parsed template: the list of its top-level nodes. -/
abbrev Template := List Node

/-- The `htmlReplacementTable` of `html/template`: NUL, the two quotes, `&`, `+`, `<`, `>`. -/
def htmlReplacement (c : Char) : Option String :=
  if c = Char.ofNat 0 then some "\uFFFD"
  else if c = Char.ofNat 34 then some "&#34;"
  else if c = '&' then some "&amp;"
  else if c = Char.ofNat 39 then some "&#39;"
  else if c = '+' then some "&#43;"
  else if c = '<' then some "&lt;"
  else if c = '>' then some "&gt;"
  else none

/-- The HTML escaper of `html/template`, character by character. -/
def htmlEscapeChars : List Char → List Char
  | [] => []
  | c :: cs =>
    match htmlReplacement c with
    | some r => r.data ++ htmlEscapeChars cs
    | none => c :: htmlEscapeChars cs

/-- The HTML escaper applied to the plain string an action evaluates to. -/
def htmlEscape (s : String) : String := ⟨htmlEscapeChars s.data⟩

/-- Evaluation of `.name` against the map under `missingkey=error`. -/
def evalField (vars : String → Option String) (name : String) : Except String String :=
  match vars name with
  | some v => .ok v
  | none => .error ("map has no entry for key " ++ name)

/-- The call `strings.LastIndex(s, c)` for a one-byte separator: position of the last
occurrence, `none` standing for `-1`. Positions count characters; as the separator `.`
is a single byte that never occurs inside a multi-byte character, cutting the character
list there is cutting the byte string at the byte index Go computes. -/
def lastIndex (c : Char) : List Char → Option Nat
  | [] => none
  | x :: xs =>
    match lastIndex c xs with
    | some k => some (k + 1)
    | none => if x = c then some 0 else none

/-- The template function `appendFileName` of smugmug.go:186-192. Without a dot
`fileExtLoc` is `-1` and the slice expression panics; the template engine turns a panic
of a called function into an execution error. -/
def appendFileName (fileName imageKey : String) : Except String String :=
  match lastIndex '.' fileName.data with
  | none => .error "runtime error: slice bounds out of range [:-1]"
  | some fileExtLoc =>
    let stem : String := ⟨fileName.data.take fileExtLoc⟩
    let extension : String := ⟨fileName.data.drop fileExtLoc⟩
    let result := stem ++ imageKey ++ extension
    .ok result

mutual
/-- Execution of one node: the text it writes, or the error that stops the execution. -/
def execNode (vars : String → Option String) : Node → Except String String
  | .text s _ => .ok s
  | .field name =>
    match evalField vars name with
    | .error e => .error e
    | .ok v => .ok (htmlEscape v)
  | .appendFileName fileName imageKey =>
    match evalField vars fileName with
    | .error e => .error e
    | .ok f =>
      match evalField vars imageKey with
      | .error e => .error e
      | .ok k =>
        match appendFileName f k with
        | .error e => .error e
        | .ok v => .ok (htmlEscape v)
  | .ifField cond thenBranch elseBranch =>
    match evalField vars cond with
    | .error e => .error e
    | .ok v => if v ≠ "" then execList vars thenBranch else execList vars elseBranch
  | .other run => run vars
/-- Execution of a node list, left to right, stopping at the first error. -/
def execList (vars : String → Option String) : List Node → Except String String
  | [] => .ok ""
  | n :: rest =>
    match execNode vars n with
    | .error e => .error e
    | .ok a =>
      match execList vars rest with
      | .error e => .error e
      | .ok b => .ok (a ++ b)
end

/-- The call `tmpl.Execute(&buf, vars)`: the error, or the content of the buffer. -/
def Template.Execute (tmpl : Template) (vars : String → Option String) : Except String String :=
  execList vars tmpl

mutual
/-- Every field a node of the represented kinds refers to, branches of conditionals
included (what an `other` node refers to is not represented). -/
def Node.fields : Node → List String
  | .text _ _ => []
  | .field name => [name]
  | .appendFileName fileName imageKey => [fileName, imageKey]
  | .ifField cond thenBranch elseBranch =>
    cond :: (fieldsOfList thenBranch ++ fieldsOfList elseBranch)
  | .other _ => []
/-- Every field a node list refers to. -/
def fieldsOfList : List Node → List String
  | [] => []
  | n :: rest => n.fields ++ fieldsOfList rest
end

/-- The fields a node evaluates whatever the data: those outside the branches of a
conditional (the condition itself is always evaluated). -/
def Node.evaluatedFields : Node → List String
  | .text _ _ => []
  | .field name => [name]
  | .appendFileName fileName imageKey => [fileName, imageKey]
  | .ifField cond _ _ => [cond]
  | .other _ => []

/-- A node that is literal text or a field action. -/
def Node.isPlain : Node → Bool
  | .text _ _ => true
  | .field _ => true
  | .appendFileName _ _ => false
  | .ifField _ _ _ => false
  | .other _ => false

/-- The method `buildFilename` of json_structs.go:91: the returned error (`none` for nil)
and the item after the call. -/
def albumImage.buildFilename (a : albumImage) (tmpl : Template) : Option String × albumImage :=
  match tmpl.Execute (replacementVars a) with
  | .error err => (some err, a)
  | .ok builtFilename =>
    let a := { a with builtFilename := builtFilename }
    if a.builtFilename = "" then (some "Empty resulting name", a) else (none, a)

/-- The method `buildFilenameUnique` of json_structs.go:111. -/
def albumImage.buildFilenameUnique (a : albumImage) (tmpl : Template) :
    Option String × albumImage :=
  match tmpl.Execute (replacementVars a) with
  | .error err => (some err, a)
  | .ok builtFilename =>
    let a := { a with builtFilenameUnique := builtFilename }
    if a.builtFilenameUnique = "" then (some "Empty resulting name", a) else (none, a)

/-- The method `Name` of json_structs.go:131. -/
def albumImage.Name (a : albumImage) : String :=
  if a.builtFilename ≠ "" then a.builtFilename
  else if a.FileName ≠ "" then a.FileName
  else a.ImageKey

/-- The method `NameUnique` of json_structs.go:143. -/
def albumImage.NameUnique (a : albumImage) : String :=
  if a.builtFilenameUnique ≠ "" then a.builtFilenameUnique
  else a.ImageKey

/-! ## smugmug.go : templates and the worker -/

/-- The function `buildFilenameTemplate` of smugmug.go:166. The library call
`template.New(..).Option("missingkey=error").Parse` is the parameter `parse`, applied to
the list of registered function names (none here) and the template text. -/
def buildFilenameTemplate (parse : List String → String → Except String Template)
    (filenameTemplate : String) : Except String Template :=
  let filenameTemplate :=
    if filenameTemplate = "" then "\x7b\x7b.FileName\x7d\x7d" else filenameTemplate
  match parse [] filenameTemplate with
  | .error err => .error err
  | .ok tmpl => .ok tmpl

/-- The function `buildUniqueFilenameTemplate` of smugmug.go:179; the function map
registers `appendFileName`. -/
def buildUniqueFilenameTemplate (parse : List String → String → Except String Template)
    (filenameTemplate : String) : Except String Template :=
  let filenameTemplate :=
    if filenameTemplate = "" then "\x7b\x7bappendFileName .FileName .ImageKey\x7d\x7d"
    else filenameTemplate
  match parse ["appendFileName"] filenameTemplate with
  | .error err => .error err
  | .ok tmpl => .ok tmpl

/-- The parse trees of the two default template texts; other texts are not covered by
this table. -/
def parseDefaults (funcs : List String) (text : String) : Except String Template :=
  if text = "\x7b\x7b.FileName\x7d\x7d" then .ok [Node.field "FileName"]
  else if text = "\x7b\x7bappendFileName .FileName .ImageKey\x7d\x7d" then
    if "appendFileName" ∈ funcs then .ok [Node.appendFileName "FileName" "ImageKey"]
    else .error "function appendFileName not defined"
  else .error "template text outside the table"

/-- A freshly decoded item: only the given fields are set, nothing rendered yet. -/
def newItem (fileName imageKey : String) : albumImage where
  AlbumPath := ""
  FileName := fileName
  ImageKey := imageKey
  ArchivedMD5 := ""
  ArchivedSize := 0
  ArchivedUri := ""
  IsVideo := false
  Processing := false
  UploadKey := ""
  DateTimeOriginal := ""
  ImageMetadataUri := ""
  LargestVideoUri := ""
  builtFilename := ""
  builtFilenameUnique := ""

/-- The struct `Conf` of smugmug.go:16. -/
structure Conf where
  ApiKey : String
  ApiSecret : String
  UserToken : String
  UserSecret : String
  Destination : String
  Filenames : String
  FilenamesUnique : String
  UseMetadataTimes : Bool
  ForceMetadataTimes : Bool
  username : String
  deriving Repr, DecidableEq

/-- The struct `album` of json_structs.go:40, with `Uris.AlbumImages.URI` flattened. -/
structure album where
  URLPath : String
  AlbumImagesURI : String
  deriving Repr, DecidableEq

/-- The calls `Worker.Run` makes, in the order it makes them. -/
inductive Call where
  | currentUser
  | userAlbums
  | createFolder (path : String)
  | albumImages (uri albumPath : String)
  | saveImages (images : List albumImage) (folder : String)
  deriving Repr, DecidableEq

/-- What `Run` reaches outside `smugmug.go` and `file.go`, over a state `W` of disk and
remote service. The methods `currentUser`, `userAlbums`, `albumImages` and `saveImages`
belong to source files that are not part of this development and are taken as
parameters; `saveImages` receives and returns the error counter, which it is free to
change. `filepathJoin` is `filepath.Join`; `stat` tells whether `os.Stat` succeeds;
`mkdirAll` is `os.MkdirAll(path, os.ModePerm)`. -/
structure Env (W : Type) where
  currentUser : W → Except String String × W
  userAlbums : W → Except String (List album) × W
  albumImages : W → String → String → Except String (List albumImage) × W
  saveImages : W → Nat → List albumImage → String → W × Nat
  filepathJoin : String → String → String
  stat : W → String → Bool
  mkdirAll : W → String → Option String × W

/-- The struct `Worker` of smugmug.go:133, with the state `world` it acts on and the log
`calls` of what `Run` invoked. The request handler and `downloadFn` live in `Env`. -/
structure Worker (W : Type) where
  cfg : Conf
  errors : Nat
  filenameTmpl : Option Template
  filenameUniqueTmpl : Option Template
  world : W
  calls : List Call

/-- The function `createFolder` of file.go:15. -/
def createFolder {W : Type} (env : Env W) (world : W) (path : String) : Option String × W :=
  if env.stat world path then (none, world)
  else
    match env.mkdirAll world path with
    | (some err, world1) => (some ("Cannot create folder: " ++ err), world1)
    | (none, world1) => (none, world1)

/-- The destination folder of an album, smugmug.go:229. -/
def Worker.folder {W : Type} (env : Env W) (w : Worker W) (album : album) : String :=
  env.filepathJoin w.cfg.Destination album.URLPath

/-- One iteration of the loop `for _, album := range albums` of smugmug.go:228-248. -/
def Worker.runAlbum {W : Type} (env : Env W) (w : Worker W) (album : album) : Worker W :=
  let folder := w.folder env album
  let w := { w with calls := w.calls ++ [Call.createFolder folder] }
  match createFolder env w.world folder with
  | (some _, world1) => { w with world := world1, errors := w.errors + 1 }
  | (none, world1) =>
    let w := { w with world := world1,
                      calls := w.calls ++ [Call.albumImages album.AlbumImagesURI album.URLPath] }
    match env.albumImages w.world album.AlbumImagesURI album.URLPath with
    | (.error _, world2) => { w with world := world2, errors := w.errors + 1 }
    | (.ok images, world2) =>
      let w := { w with world := world2, calls := w.calls ++ [Call.saveImages images folder] }
      let saved := env.saveImages w.world w.errors images folder
      { w with world := saved.1, errors := saved.2 }

/-- The whole loop of smugmug.go:228-248 over the album list. -/
def Worker.runAlbums {W : Type} (env : Env W) (w : Worker W) : List album → Worker W
  | [] => w
  | album :: rest => Worker.runAlbums env (w.runAlbum env album) rest

/-- The state in which `Run` enters its loop, smugmug.go:213-226: the two lookups that
precede it, or the error that aborts the run. -/
def Worker.fetchAlbums {W : Type} (env : Env W) (w : Worker W) :
    Except String (List album) × Worker W :=
  let w := { w with calls := w.calls ++ [Call.currentUser] }
  match env.currentUser w.world with
  | (.error err, world1) =>
    (.error ("Error checking credentials: " ++ err), { w with world := world1 })
  | (.ok username, world1) =>
    let w := { w with world := world1, cfg := { w.cfg with username := username },
                      calls := w.calls ++ [Call.userAlbums] }
    match env.userAlbums w.world with
    | (.error err, world2) =>
      (.error ("Error getting user albums: " ++ err), { w with world := world2 })
    | (.ok albums, world2) => (.ok albums, { w with world := world2 })

/-- The method `Worker.Run` of smugmug.go:212: the returned error (`none` for nil) and the
worker after the run. -/
def Worker.Run {W : Type} (env : Env W) (w : Worker W) : Option String × Worker W :=
  match w.fetchAlbums env with
  | (.error err, w) => (some err, w)
  | (.ok albums, w) =>
    let w := w.runAlbums env albums
    if w.errors > 0 then
      (some ("Completed with " ++ toString w.errors ++ " errors, please check logs"), w)
    else
      (none, w)

/-- The folders passed to `createFolder`, in call order. -/
def createdFolders (calls : List Call) : List String :=
  calls.filterMap (fun c => match c with
    | .createFolder path => some path
    | _ => none)

/-- A run environment over a trivial state: two albums, the folder of `/broken` cannot be
created, every album holds one image and saving never adds errors. -/
def sampleEnv : Env Unit where
  currentUser := fun _ => (.ok "nick", ())
  userAlbums := fun _ =>
    (.ok [{ URLPath := "/broken", AlbumImagesURI := "/api/v2/album/1!images" },
          { URLPath := "/good", AlbumImagesURI := "/api/v2/album/2!images" }], ())
  albumImages := fun _ _ _ => (.ok [newItem "a.jpg" "K"], ())
  saveImages := fun _ errors _ _ => ((), errors)
  filepathJoin := fun a b => a ++ b
  stat := fun _ _ => false
  mkdirAll := fun _ path => if path = "/bk/broken" then (some "permission denied", ()) else (none, ())

/-- A worker about to run, with destination `/bk`. -/
def sampleWorker : Worker Unit where
  cfg := { ApiKey := "k", ApiSecret := "s", UserToken := "t", UserSecret := "u",
           Destination := "/bk", Filenames := "", FilenamesUnique := "",
           UseMetadataTimes := false, ForceMetadataTimes := false, username := "" }
  errors := 0
  filenameTmpl := some [Node.field "FileName"]
  filenameUniqueTmpl := some [Node.appendFileName "FileName" "ImageKey"]
  world := ()
  calls := []

/-- A server that answers every request with status 500. -/
def net500 : Net where
  newRequest := fun _ => true
  sign := fun _ _ => .ok "OAuth oauth_nonce=fresh"
  client := fun _ _ =>
    .response { StatusCode := 500, Status := "500 Internal Server Error",
                Body := { data := [], readErr := none } }

/-- A transport error, then a 429, then a 200 with a three-byte body. -/
def netFlaky : Net where
  newRequest := fun _ => true
  sign := fun _ _ => .ok "OAuth oauth_nonce=fresh"
  client := fun _ i =>
    if i = 1 then .transportError "connection reset"
    else if i = 2 then
      .response { StatusCode := 429, Status := "429 Too Many Requests",
                  Body := { data := [], readErr := none } }
    else
      .response { StatusCode := 200, Status := "200 OK",
                  Body := { data := [1, 2, 3], readErr := none } }

/-- A disk with `/bk/a.jpg` (3 bytes) and `/bk/aKEY.jpg` (5 bytes), behind `netFlaky`. -/
def sampleWorld : World where
  files := fun p =>
    if p = "/bk/a.jpg" then some [1, 2, 3]
    else if p = "/bk/aKEY.jpg" then some [1, 2, 3, 4, 5]
    else none
  createErr := fun _ => none
  writeErr := fun _ => none
  net := netFlaky
  apiCalls := []
  log := []

/-! ### The workflow of one album, in the words of the spec

Section 4.5 of the spec describes what happens to one album: ensure the destination
folder, fetch the image list, save the images; a failure of one of the first two is
counted once and skips the rest of that album. `AlbumStep` and `AlbumsProcessed` say this
in terms of the operations of `Env` alone, so that `Run` can be compared with it.
-/

/-- The state `s1` is what processing the album `a` makes of the state `s`:
* folder creation fails: the state of disk and service is the one `createFolder` left,
  the counter grows by one, and `createFolder` is the only call;
* the folder exists or is created and fetching the images fails: the state is the one
  `albumImages` left, the counter grows by one, and `saveImages` is not called;
* both succeed: `saveImages` runs on the fetched images, in the state `albumImages`
  left, and its result is the new state and counter. -/
def AlbumStep {W : Type} (env : Env W) (s : Worker W) (a : album) (s1 : Worker W) : Prop :=
  s1.cfg = s.cfg ∧
  (∀ err world1,
    createFolder env s.world (env.filepathJoin s.cfg.Destination a.URLPath) = (some err, world1) →
    s1.world = world1 ∧ s1.errors = s.errors + 1 ∧
    s1.calls = s.calls ++ [Call.createFolder (env.filepathJoin s.cfg.Destination a.URLPath)]) ∧
  (∀ world1 err world2,
    createFolder env s.world (env.filepathJoin s.cfg.Destination a.URLPath) = (none, world1) →
    env.albumImages world1 a.AlbumImagesURI a.URLPath = (.error err, world2) →
    s1.world = world2 ∧ s1.errors = s.errors + 1 ∧
    s1.calls = s.calls ++ [Call.createFolder (env.filepathJoin s.cfg.Destination a.URLPath),
      Call.albumImages a.AlbumImagesURI a.URLPath]) ∧
  (∀ world1 images world2,
    createFolder env s.world (env.filepathJoin s.cfg.Destination a.URLPath) = (none, world1) →
    env.albumImages world1 a.AlbumImagesURI a.URLPath = (.ok images, world2) →
    s1.world = (env.saveImages world2 s.errors images
      (env.filepathJoin s.cfg.Destination a.URLPath)).1 ∧
    s1.errors = (env.saveImages world2 s.errors images
      (env.filepathJoin s.cfg.Destination a.URLPath)).2 ∧
    s1.calls = s.calls ++ [Call.createFolder (env.filepathJoin s.cfg.Destination a.URLPath),
      Call.albumImages a.AlbumImagesURI a.URLPath,
      Call.saveImages images (env.filepathJoin s.cfg.Destination a.URLPath)])

/-- The state `s1` is reached from `s` by processing the albums of the list one after the
other, in list order, each as `AlbumStep` says. -/
def AlbumsProcessed {W : Type} (env : Env W) : Worker W → List album → Worker W → Prop
  | s, [], s1 => s1 = s
  | s, a :: rest, s1 => ∃ mid, AlbumStep env s a mid ∧ AlbumsProcessed env mid rest s1

/-- A run environment whose state is a journal: every operation appends a line saying
what it was asked to do. Two albums; the folder of `/broken` cannot be created. -/
def journalEnv : Env (List String) where
  currentUser := fun j => (.ok "nick", j ++ ["currentUser"])
  userAlbums := fun j =>
    (.ok [{ URLPath := "/broken", AlbumImagesURI := "/api/v2/album/1!images" },
          { URLPath := "/good", AlbumImagesURI := "/api/v2/album/2!images" }],
      j ++ ["userAlbums"])
  albumImages := fun j uri _ => (.ok [newItem "a.jpg" "K"], j ++ ["albumImages " ++ uri])
  saveImages := fun j errors _ folder => (j ++ ["saveImages " ++ folder], errors)
  filepathJoin := fun a b => a ++ b
  stat := fun _ _ => false
  mkdirAll := fun j path =>
    if path = "/bk/broken" then (some "permission denied", j ++ ["mkdirAll " ++ path])
    else (none, j ++ ["mkdirAll " ++ path])

/-- A worker about to run on an empty journal, with destination `/bk`. -/
def journalWorker : Worker (List String) where
  cfg := { ApiKey := "k", ApiSecret := "s", UserToken := "t", UserSecret := "u",
           Destination := "/bk", Filenames := "", FilenamesUnique := "",
           UseMetadataTimes := false, ForceMetadataTimes := false, username := "" }
  errors := 0
  filenameTmpl := some [Node.field "FileName"]
  filenameUniqueTmpl := some [Node.appendFileName "FileName" "ImageKey"]
  world := []
  calls := []

/-! ### Construction of the worker -/

/-- What `checkDestFolder` asks of the disk: `filepath.IsAbs`, and `os.Stat` followed by
`IsDir()` (`none` when `os.Stat` fails). -/
structure Disk where
  isAbs : String → Bool
  stat : String → Option Bool

/-- The function `checkDestFolder` of file.go:31. -/
def checkDestFolder (disk : Disk) (folderPath : String) : Option String :=
  if disk.isAbs folderPath = false then
    some "Destination path must be an absolute path"
  else
    match disk.stat folderPath with
    | none => some "Destination path doesn't exist"
    | some isDir =>
      if isDir = false then some "Destination path isn't a directory" else none

/-- The method `Conf.validate` of smugmug.go:58. -/
def Conf.validate (disk : Disk) (cfg : Conf) : Option String :=
  if cfg.ApiKey = "" then some "ApiKey can't be empty"
  else if cfg.ApiSecret = "" then some "ApiSecret can't be empty"
  else if cfg.UserToken = "" then some "UserToken can't be empty"
  else if cfg.UserSecret = "" then some "UserSecret can't be empty"
  else if cfg.Destination = "" then some "Destination can't be empty"
  else
    match checkDestFolder disk cfg.Destination with
    | some err =>
      some ("Can't find in the destination folder " ++ cfg.Destination ++ ": " ++ err)
    | none => none

/-- The pair a Go function returning `(*template.Template, error)` hands back. -/
def goReturn (r : Except String Template) : Option Template × Option String :=
  match r with
  | .ok tmpl => (some tmpl, none)
  | .error err => (none, some err)

/-- The function `New` of smugmug.go:144: the worker (`none` for nil) and the error (`none`
for nil). The second `:=` of smugmug.go:152 declares `tmplUnique` only and assigns to the
`err` declared the line before; the single test of `err` follows it. The worker starts on
the given state with an empty call log. -/
def New {W : Type} (disk : Disk) (parse : List String → String → Except String Template)
    (world : W) (cfg : Conf) : Option (Worker W) × Option String :=
  match cfg.validate disk with
  | some err => (none, some err)
  | none =>
    let first := goReturn (buildFilenameTemplate parse cfg.Filenames)
    let tmpl := first.1
    let err := first.2
    let second := goReturn (buildUniqueFilenameTemplate parse cfg.FilenamesUnique)
    let tmplUnique := second.1
    let err := second.2
    match err with
    | some err => (none, some err)
    | none =>
      (some { cfg := cfg, errors := 0, filenameTmpl := tmpl, filenameUniqueTmpl := tmplUnique,
              world := world, calls := [] }, none)

/-- A disk on which `/bk` is an existing directory. -/
def sampleDisk : Disk where
  isAbs := fun p => p.data.head? = some '/'
  stat := fun p => if p = "/bk" then some true else none

/-- A parser that rejects the text `.FileName` opened by two braces and never closed, as
the library does (`unclosed action`), and knows the two default texts. -/
def parseUnclosed (funcs : List String) (text : String) : Except String Template :=
  if text = "\x7b\x7b.FileName" then .error "template: image_filename:1: unclosed action"
  else parseDefaults funcs text

/-- A valid configuration whose primary template does not parse. -/
def unclosedConf : Conf :=
  { ApiKey := "k", ApiSecret := "s", UserToken := "t", UserSecret := "u",
    Destination := "/bk", Filenames := "\x7b\x7b.FileName", FilenamesUnique := "",
    UseMetadataTimes := false, ForceMetadataTimes := false, username := "" }

/-! ## Theorems -/

theorem makeAPICallLoop_step (net : Net) (url : String) (i : Nat) (rest : List Nat)
    (st : CallState) (hreq : net.newRequest url = true)
    (hsign : ∀ i, ∃ h, net.sign url i = .ok h) :
    makeAPICallLoop net url (i :: rest) st =
      match net.client url i with
      | .transportError err =>
        if i ≥ maxRetries then
          (.returned (none, some "Too many errors"),
            { st with events := st.events ++ [Event.attempt i],
                      errorsList := st.errorsList ++ [err],
                      logged := st.logged ++ (st.errorsList ++ [err]) })
        else
          makeAPICallLoop net url rest
            { st with events := st.events ++ [Event.attempt i] ++ [Event.sleep 2],
                      errorsList := st.errorsList ++ [err] }
      | .response r =>
        if r.StatusCode ≥ 400 then
          if i ≥ maxRetries then
            (.returned (none, some "Too many errors"),
              { st with events := st.events ++ [Event.attempt i],
                        errorsList := st.errorsList ++ [r.Status],
                        logged := st.logged ++ (st.errorsList ++ [r.Status]) })
          else if r.StatusCode = 429 then
            makeAPICallLoop net url rest
              { st with events := st.events ++ [Event.attempt i] ++ [Event.sleep 10],
                        errorsList := st.errorsList ++ [r.Status] }
          else
            makeAPICallLoop net url rest
              { st with events := st.events ++ [Event.attempt i],
                        errorsList := st.errorsList ++ [r.Status] }
        else
          (.returned (some r, none),
            { st with events := st.events ++ [Event.attempt i], resp := some r }) := by
  obtain ⟨h, hs⟩ := hsign i
  rw [makeAPICallLoop]
  simp only [hs, hreq]
  cases net.client url i <;> simp

/-- Claim C1. When a file exists at `dest` and its size equals `fileSize`, `download`
returns `(false, nil)` and leaves the whole world as it was: `apiCalls` and the request
log get no entry (no call of `makeAPICall`) and no file is created or written. -/
theorem download_skips_same_size (w : World) (dest destUnique downloadURL : String)
    (fileSize : Int) (md5sum : String) (content : List UInt8)
    (hfile : w.files dest = some content) (hsize : (content.length : Int) = fileSize) :
    download w dest destUnique downloadURL fileSize md5sum = (.returned (false, none), w) := by
  simp [download, osStat, sameFileSizes, hfile, hsize]

/-- Witness for C1 on `sampleWorld`. -/
theorem download_skips_same_size_witness :
    sampleWorld.files "/bk/a.jpg" = some [1, 2, 3] ∧
    download sampleWorld "/bk/a.jpg" "/bk/aKEY.jpg" "https://photos/a.jpg" 3 "d41d8cd9" =
      (.returned (false, none), sampleWorld) :=
  ⟨rfl, download_skips_same_size sampleWorld "/bk/a.jpg" "/bk/aKEY.jpg" "https://photos/a.jpg"
    3 "d41d8cd9" [1, 2, 3] rfl rfl⟩

/-- Claim C2. When a file exists at `dest` with a size different from `fileSize` and a file
exists at `destUnique` with size `fileSize`, `download` returns `(false, nil)` and leaves
the whole world as it was: no call of `makeAPICall`, no file created or truncated. -/
theorem download_skips_unique_same_size (w : World) (dest destUnique downloadURL : String)
    (fileSize : Int) (md5sum : String) (content contentUnique : List UInt8)
    (hfile : w.files dest = some content) (hsize : (content.length : Int) ≠ fileSize)
    (hfileU : w.files destUnique = some contentUnique)
    (hsizeU : (contentUnique.length : Int) = fileSize) :
    download w dest destUnique downloadURL fileSize md5sum = (.returned (false, none), w) := by
  simp [download, osStat, sameFileSizes, hfile, hsize, hfileU, hsizeU]

/-- Witness for C2 on `sampleWorld`. -/
theorem download_skips_unique_same_size_witness :
    sampleWorld.files "/bk/a.jpg" = some [1, 2, 3] ∧
    sampleWorld.files "/bk/aKEY.jpg" = some [1, 2, 3, 4, 5] ∧
    download sampleWorld "/bk/a.jpg" "/bk/aKEY.jpg" "https://photos/a.jpg" 5 "d41d8cd9" =
      (.returned (false, none), sampleWorld) :=
  ⟨rfl, rfl, download_skips_unique_same_size sampleWorld "/bk/a.jpg" "/bk/aKEY.jpg"
    "https://photos/a.jpg" 5 "d41d8cd9" [1, 2, 3] [1, 2, 3, 4, 5] rfl (by decide) rfl rfl⟩

theorem ioCopy_complete (limit : Option (Nat × String)) (body : Body)
    (h : (ioCopy limit body).2 = none) : (ioCopy limit body).1 = body.data := by
  unfold ioCopy at h ⊢
  rcases limit with _ | ⟨n, e⟩
  · rfl
  · by_cases hn : n < body.data.length
    · simp [hn] at h
    · simp [hn]

/-- What `downloadFetch` does when the call, the creation and the copy succeed. -/
theorem downloadFetch_success (w : World) (dest downloadURL : String) (r : Response)
    (hapi : (makeAPICall w.net downloadURL).1 = .returned (some r, none))
    (hcreate : w.createErr dest = none)
    (hcopy : (ioCopy (w.writeErr dest) r.Body).2 = none) :
    (downloadFetch w dest downloadURL).1 = .returned (true, none) ∧
    (downloadFetch w dest downloadURL).2.files dest = some r.Body.data ∧
    (∀ p, p ≠ dest → (downloadFetch w dest downloadURL).2.files p = w.files p) ∧
    (downloadFetch w dest downloadURL).2.apiCalls = w.apiCalls ++ [downloadURL] ∧
    (downloadFetch w dest downloadURL).2.log =
      w.log ++ (makeAPICall w.net downloadURL).2.events.map (fun e => (downloadURL, e)) := by
  have hdata := ioCopy_complete _ _ hcopy
  refine ⟨?_, ?_, ?_, ?_, ?_⟩
  · simp [downloadFetch, hapi, hcreate, hcopy]
  · simp [downloadFetch, hapi, hcreate, hcopy, hdata, writeFile]
  · intro p hp
    simp [downloadFetch, hapi, hcreate, hcopy, writeFile, hp]
  · simp [downloadFetch, hapi, hcreate, hcopy]
  · simp [downloadFetch, hapi, hcreate, hcopy]

/-- Claim C3. When neither dedup case applies and the API call, the file creation and the
copy all succeed, `download` returns `(true, nil)`. The file it creates and fills with the
full response body is `destUnique` when a file existed at `dest` (then of a size different
from `fileSize`) and `dest` when no file existed at `dest`; every other path keeps its
content; `makeAPICall` is called once, with `downloadURL`, and the request log grows by
the events of that call. -/
theorem download_fetches_to_last_checked (w : World) (dest destUnique downloadURL : String)
    (fileSize : Int) (md5sum : String) (r : Response) (target : String)
    (hdedup : ¬ ∃ c, w.files dest = some c ∧ (c.length : Int) = fileSize)
    (hdedupU : ¬ ∃ c cu, w.files dest = some c ∧ (c.length : Int) ≠ fileSize ∧
      w.files destUnique = some cu ∧ (cu.length : Int) = fileSize)
    (htarget : target = if (w.files dest).isSome then destUnique else dest)
    (hapi : (makeAPICall w.net downloadURL).1 = .returned (some r, none))
    (hcreate : w.createErr target = none)
    (hcopy : (ioCopy (w.writeErr target) r.Body).2 = none) :
    (download w dest destUnique downloadURL fileSize md5sum).1 = .returned (true, none) ∧
    (download w dest destUnique downloadURL fileSize md5sum).2.files target =
      some r.Body.data ∧
    (∀ p, p ≠ target →
      (download w dest destUnique downloadURL fileSize md5sum).2.files p = w.files p) ∧
    ((∃ c, w.files dest = some c ∧ (c.length : Int) ≠ fileSize) → target = destUnique) ∧
    (w.files dest = none → target = dest) ∧
    (download w dest destUnique downloadURL fileSize md5sum).2.apiCalls =
      w.apiCalls ++ [downloadURL] ∧
    (download w dest destUnique downloadURL fileSize md5sum).2.log =
      w.log ++ (makeAPICall w.net downloadURL).2.events.map (fun e => (downloadURL, e)) := by
  rcases hd : w.files dest with _ | c
  · have ht : target = dest := by simp [htarget, hd]
    subst ht
    have hrun : download w target destUnique downloadURL fileSize md5sum =
        downloadFetch w target downloadURL := by
      simp [download, osStat, hd]
    rw [hrun]
    obtain ⟨a, b, c, d, e⟩ := downloadFetch_success w target downloadURL r hapi hcreate hcopy
    exact ⟨a, b, c, by simp, fun _ => rfl, d, e⟩
  · have ht : target = destUnique := by simp [htarget, hd]
    subst ht
    have hne : (c.length : Int) ≠ fileSize := fun h => hdedup ⟨c, hd, h⟩
    have hrun : download w dest target downloadURL fileSize md5sum =
        downloadFetch w target downloadURL := by
      rcases hu : w.files target with _ | cu
      · simp [download, osStat, sameFileSizes, hd, hne, hu]
      · have hneU : (cu.length : Int) ≠ fileSize := fun h => hdedupU ⟨c, cu, hd, hne, hu, h⟩
        simp [download, osStat, sameFileSizes, hd, hne, hu, hneU]
    rw [hrun]
    obtain ⟨a, b, c, d, e⟩ := downloadFetch_success w target downloadURL r hapi hcreate hcopy
    exact ⟨a, b, c, fun _ => rfl, by simp, d, e⟩

/-- Witness for C3 on `sampleWorld`: `/bk/a.jpg` holds 3 bytes, the item declares 7, and
`/bk/aKEY.jpg` holds 5, so the body goes to `/bk/aKEY.jpg`. -/
theorem download_fetches_to_last_checked_witness :
    (makeAPICall sampleWorld.net "https://photos/a.jpg").1 =
      .returned (some { StatusCode := 200, Status := "200 OK",
                        Body := { data := [1, 2, 3], readErr := none } }, none) ∧
    (download sampleWorld "/bk/a.jpg" "/bk/aKEY.jpg" "https://photos/a.jpg" 7 "d41d8cd9").1 =
      .returned (true, none) ∧
    (download sampleWorld "/bk/a.jpg" "/bk/aKEY.jpg" "https://photos/a.jpg" 7
      "d41d8cd9").2.files "/bk/aKEY.jpg" = some [1, 2, 3] :=
  have h := download_fetches_to_last_checked sampleWorld "/bk/a.jpg" "/bk/aKEY.jpg"
    "https://photos/a.jpg" 7 "d41d8cd9"
    { StatusCode := 200, Status := "200 OK", Body := { data := [1, 2, 3], readErr := none } }
    "/bk/aKEY.jpg"
    (by rintro ⟨c, hc, hl⟩
        have : c = [1, 2, 3] := by
          have h3 : sampleWorld.files "/bk/a.jpg" = some [1, 2, 3] := rfl
          rw [h3] at hc
          exact (Option.some.inj hc).symm
        subst this
        exact absurd hl (by decide))
    (by rintro ⟨c, cu, -, -, hcu, hl⟩
        have : cu = [1, 2, 3, 4, 5] := by
          have h5 : sampleWorld.files "/bk/aKEY.jpg" = some [1, 2, 3, 4, 5] := rfl
          rw [h5] at hcu
          exact (Option.some.inj hcu).symm
        subst this
        exact absurd hl (by decide))
    rfl (by decide) rfl rfl
  ⟨by decide, h.1, h.2.1⟩

/-- The pause `makeAPICall` takes after a failed attempt that is not the last one,
read off the loop body: http.go:147 for a transport error, http.go:160-165 for a status. -/
theorem makeAPICallLoop_retry (net : Net) (url : String) (i : Nat) (rest : List Nat)
    (st : CallState) (hreq : net.newRequest url = true)
    (hsign : ∀ i, ∃ h, net.sign url i = .ok h)
    (hfail : (net.client url i).failed = true) (hi : i < maxRetries) :
    ∃ st1 : CallState, makeAPICallLoop net url (i :: rest) st = makeAPICallLoop net url rest st1 ∧
      st1.events = st.events ++ Event.attempt i ::
        (match net.client url i with
          | .transportError _ => [Event.sleep 2]
          | .response r => if r.StatusCode = 429 then [Event.sleep 10] else []) := by
  rw [makeAPICallLoop_step net url i rest st hreq hsign]
  have hi2 : ¬ i ≥ maxRetries := by omega
  rcases h : net.client url i with e | r
  · simp only [hi2, if_false]
    exact ⟨_, rfl, by simp⟩
  · have h400 : r.StatusCode ≥ 400 := by simpa [h, DoResult.failed] using hfail
    simp only [hi2, h400, if_true, if_false]
    by_cases h429 : r.StatusCode = 429
    · simp only [h429, if_true]
      exact ⟨_, rfl, by simp⟩
    · simp only [h429, if_false]
      exact ⟨_, rfl, by simp⟩

theorem makeAPICallLoop_giveUp (net : Net) (url : String) (i : Nat) (rest : List Nat)
    (st : CallState) (hreq : net.newRequest url = true)
    (hsign : ∀ i, ∃ h, net.sign url i = .ok h)
    (hfail : (net.client url i).failed = true) (hi : i ≥ maxRetries) :
    ∃ st1 : CallState,
      makeAPICallLoop net url (i :: rest) st = (.returned (none, some "Too many errors"), st1) ∧
      st1.events = st.events ++ [Event.attempt i] := by
  rw [makeAPICallLoop_step net url i rest st hreq hsign]
  rcases h : net.client url i with e | r
  · simp only [hi, if_true]
    exact ⟨_, rfl, rfl⟩
  · have h400 : r.StatusCode ≥ 400 := by simpa [h, DoResult.failed] using hfail
    simp only [hi, h400, if_true]
    exact ⟨_, rfl, rfl⟩

theorem makeAPICallLoop_success (net : Net) (url : String) (i : Nat) (rest : List Nat)
    (st : CallState) (hreq : net.newRequest url = true)
    (hsign : ∀ i, ∃ h, net.sign url i = .ok h)
    (hok : (net.client url i).failed = false) :
    ∃ r st1, net.client url i = .response r ∧
      makeAPICallLoop net url (i :: rest) st = (.returned (some r, none), st1) ∧
      st1.events = st.events ++ [Event.attempt i] := by
  rw [makeAPICallLoop_step net url i rest st hreq hsign]
  rcases h : net.client url i with e | r
  · simp [h, DoResult.failed] at hok
  · have h400 : ¬ r.StatusCode ≥ 400 := by simpa [h, DoResult.failed] using hok
    simp only [h400, if_false]
    exact ⟨r, _, rfl, rfl, rfl⟩

/-- A pause holds no attempt. -/
theorem pause_no_attempt (d : DoResult) :
    List.filterMap (fun e => match e with
        | Event.attempt i => some i
        | Event.sleep _ => none)
      (match d with
        | .transportError _ => [Event.sleep 2]
        | .response r => if r.StatusCode = 429 then [Event.sleep 10] else []) = [] := by
  rcases d with e | r
  · rfl
  · by_cases h : r.StatusCode = 429 <;> simp [h]

/-- The loop only ever appends to the trace, and a non-empty loop starts by dispatching. -/
theorem makeAPICallLoop_events (net : Net) (url : String) (hreq : net.newRequest url = true)
    (hsign : ∀ i, ∃ h, net.sign url i = .ok h) :
    ∀ (l : List Nat) (st : CallState),
      ∃ tail, (makeAPICallLoop net url l st).2.events = st.events ++ tail ∧
        ∀ j rest, l = j :: rest → ∃ tail1, tail = Event.attempt j :: tail1 := by
  intro l
  induction l with
  | nil => intro st; exact ⟨[], by simp [makeAPICallLoop], by simp⟩
  | cons i rest ih =>
    intro st
    by_cases hf : (net.client url i).failed = true
    · by_cases hi : i < maxRetries
      · obtain ⟨st1, h1, h2⟩ := makeAPICallLoop_retry net url i rest st hreq hsign hf hi
        obtain ⟨tail, ht, -⟩ := ih st1
        rw [h1, ht, h2]
        refine ⟨_, by rw [List.append_assoc], ?_⟩
        intro j rest1 hj
        cases hj
        exact ⟨_, rfl⟩
      · obtain ⟨st1, h1, h2⟩ :=
          makeAPICallLoop_giveUp net url i rest st hreq hsign hf (by omega)
        rw [h1]
        refine ⟨_, h2, ?_⟩
        intro j rest1 hj
        cases hj
        exact ⟨_, rfl⟩
    · obtain ⟨r, st1, -, h1, h2⟩ :=
        makeAPICallLoop_success net url i rest st hreq hsign (by simpa using hf)
      rw [h1]
      refine ⟨_, h2, ?_⟩
      intro j rest1 hj
      cases hj
      exact ⟨_, rfl⟩

/-- Claim C4. With a signer and request constructor that do not panic, `makeAPICall`
dispatches attempts 1, 2, ... until the first one that succeeds or until
`maxRetries = 3` have failed. It returns an error exactly when attempts 1, 2 and 3 all
fail (transport error or status `≥ 400`), after exactly the three attempts; otherwise it
returns a nil error with the (non-nil) response of the first successful attempt `k`,
after exactly the attempts `1 .. k`. -/
theorem makeAPICall_retry_policy (net : Net) (url : String)
    (hreq : net.newRequest url = true) (hsign : ∀ i, ∃ h, net.sign url i = .ok h) :
    maxRetries = 3 ∧
    ((∃ resp e, (makeAPICall net url).1 = .returned (resp, some e)) ↔
      ((net.client url 1).failed = true ∧ (net.client url 2).failed = true ∧
        (net.client url 3).failed = true)) ∧
    (((net.client url 1).failed = true ∧ (net.client url 2).failed = true ∧
        (net.client url 3).failed = true) →
      (makeAPICall net url).1 = .returned (none, some "Too many errors") ∧
      attemptsMade (makeAPICall net url).2 = [1, 2, 3]) ∧
    (∀ k, 1 ≤ k → k ≤ 3 → (net.client url k).failed = false →
      (∀ j, 1 ≤ j → j < k → (net.client url j).failed = true) →
      ∃ r, net.client url k = .response r ∧
        (makeAPICall net url).1 = .returned (some r, none) ∧
        attemptsMade (makeAPICall net url).2 = List.range' 1 k) := by
  have hall : ((net.client url 1).failed = true ∧ (net.client url 2).failed = true ∧
        (net.client url 3).failed = true) →
      (makeAPICall net url).1 = .returned (none, some "Too many errors") ∧
      attemptsMade (makeAPICall net url).2 = [1, 2, 3] := by
    rintro ⟨f1, f2, f3⟩
    obtain ⟨s1, e1, v1⟩ := makeAPICallLoop_retry net url 1 [2, 3]
      { resp := none, errorsList := [], events := [], logged := [] } hreq hsign f1 (by decide)
    obtain ⟨s2, e2, v2⟩ := makeAPICallLoop_retry net url 2 [3] s1 hreq hsign f2 (by decide)
    obtain ⟨s3, e3, v3⟩ := makeAPICallLoop_giveUp net url 3 [] s2 hreq hsign f3 (by decide)
    have hrun : makeAPICall net url = (.returned (none, some "Too many errors"), s3) := by
      rw [makeAPICall, maxRetries]
      simp only [List.range']
      rw [e1, e2, e3]
    rw [hrun]
    refine ⟨rfl, ?_⟩
    simp only [attemptsMade, v3, v2, v1]
    simp [List.filterMap_append, List.filterMap_cons, pause_no_attempt]
  have hfirst : ∀ k, 1 ≤ k → k ≤ 3 → (net.client url k).failed = false →
      (∀ j, 1 ≤ j → j < k → (net.client url j).failed = true) →
      ∃ r, net.client url k = .response r ∧
        (makeAPICall net url).1 = .returned (some r, none) ∧
        attemptsMade (makeAPICall net url).2 = List.range' 1 k := by
    intro k hk1 hk3 hok hbefore
    have hk : k = 1 ∨ k = 2 ∨ k = 3 := by omega
    rcases hk with rfl | rfl | rfl
    · obtain ⟨r, s1, hr, e1, v1⟩ := makeAPICallLoop_success net url 1 [2, 3]
        { resp := none, errorsList := [], events := [], logged := [] } hreq hsign hok
      have hrun : makeAPICall net url = (.returned (some r, none), s1) := by
        rw [makeAPICall, maxRetries]
        simp only [List.range']
        rw [e1]
      rw [hrun]
      exact ⟨r, hr, rfl, by simp [attemptsMade, v1, List.range']⟩
    · have f1 := hbefore 1 (by decide) (by decide)
      obtain ⟨s1, e1, v1⟩ := makeAPICallLoop_retry net url 1 [2, 3]
        { resp := none, errorsList := [], events := [], logged := [] } hreq hsign f1 (by decide)
      obtain ⟨r, s2, hr, e2, v2⟩ := makeAPICallLoop_success net url 2 [3] s1 hreq hsign hok
      have hrun : makeAPICall net url = (.returned (some r, none), s2) := by
        rw [makeAPICall, maxRetries]
        simp only [List.range']
        rw [e1, e2]
      rw [hrun]
      refine ⟨r, hr, rfl, ?_⟩
      simp only [attemptsMade, v2, v1]
      simp [List.filterMap_append, List.filterMap_cons, pause_no_attempt, List.range']
    · have f1 := hbefore 1 (by decide) (by decide)
      have f2 := hbefore 2 (by decide) (by decide)
      obtain ⟨s1, e1, v1⟩ := makeAPICallLoop_retry net url 1 [2, 3]
        { resp := none, errorsList := [], events := [], logged := [] } hreq hsign f1 (by decide)
      obtain ⟨s2, e2, v2⟩ := makeAPICallLoop_retry net url 2 [3] s1 hreq hsign f2 (by decide)
      obtain ⟨r, s3, hr, e3, v3⟩ := makeAPICallLoop_success net url 3 [] s2 hreq hsign hok
      have hrun : makeAPICall net url = (.returned (some r, none), s3) := by
        rw [makeAPICall, maxRetries]
        simp only [List.range']
        rw [e1, e2, e3]
      rw [hrun]
      refine ⟨r, hr, rfl, ?_⟩
      simp only [attemptsMade, v3, v2, v1]
      simp [List.filterMap_append, List.filterMap_cons, pause_no_attempt, List.range']
  refine ⟨rfl, ⟨?_, ?_⟩, hall, hfirst⟩
  · rintro ⟨resp, e, he⟩
    by_contra hnot
    have : ∃ k, 1 ≤ k ∧ k ≤ 3 ∧ (net.client url k).failed = false ∧
        (∀ j, 1 ≤ j → j < k → (net.client url j).failed = true) := by
      by_cases f1 : (net.client url 1).failed = true
      · by_cases f2 : (net.client url 2).failed = true
        · by_cases f3 : (net.client url 3).failed = true
          · exact absurd ⟨f1, f2, f3⟩ hnot
          · refine ⟨3, by decide, by decide, by simpa using f3, ?_⟩
            intro j h1 h2
            have hj : j = 1 ∨ j = 2 := by omega
            rcases hj with rfl | rfl <;> assumption
        · refine ⟨2, by decide, by decide, by simpa using f2, ?_⟩
          intro j h1 h2
          have hj : j = 1 := by omega
          rw [hj]; exact f1
      · refine ⟨1, by decide, by decide, by simpa using f1, ?_⟩
        intro j h1 h2
        omega
    obtain ⟨k, hk1, hk3, hok, hbefore⟩ := this
    obtain ⟨r, -, hres, -⟩ := hfirst k hk1 hk3 hok hbefore
    rw [hres] at he
    simp at he
  · intro h
    exact ⟨none, "Too many errors", (hall h).1⟩

/-- Witness for C4 on `netFlaky`: the third attempt is the first to succeed. -/
theorem makeAPICall_retry_policy_witness :
    netFlaky.newRequest "/api/v2!authuser" = true ∧
    (∀ i, ∃ h, netFlaky.sign "/api/v2!authuser" i = .ok h) ∧
    (∃ r, netFlaky.client "/api/v2!authuser" 3 = .response r ∧
      (makeAPICall netFlaky "/api/v2!authuser").1 = .returned (some r, none) ∧
      attemptsMade (makeAPICall netFlaky "/api/v2!authuser").2 = List.range' 1 3) :=
  ⟨rfl, fun _ => ⟨_, rfl⟩,
    (makeAPICall_retry_policy netFlaky "/api/v2!authuser" rfl (fun _ => ⟨_, rfl⟩)).2.2.2 3
      (by decide) (by decide) (by decide)
      (fun j h1 h2 => by
        have hj : j = 1 ∨ j = 2 := by omega
        rcases hj with rfl | rfl <;> decide)⟩

/-- Claim C5 as stated fails: after a status 500 (a failure other than 429) that is followed
by another attempt, `makeAPICall` dispatches the next attempt with no pause at all, where
the claim asks for a 2-second pause. -/
theorem makeAPICall_pause_counterexample :
    (net500.client "/api/v2/album" 1).failed = true ∧
    (makeAPICall net500 "/api/v2/album").2.events =
      [Event.attempt 1, Event.attempt 2, Event.attempt 3] ∧
    ¬ ([Event.attempt 1, Event.sleep 2, Event.attempt 2] <:+:
        (makeAPICall net500 "/api/v2/album").2.events) := by
  refine ⟨by decide, by decide, by decide⟩

/-- Claim C5, amended. For every failed attempt `i` that is followed by another attempt,
the next attempt comes after a pause fixed by the outcome of attempt `i`: one 2-second
sleep after a transport error, one 10-second sleep after status 429, and no sleep after
any other status `≥ 400`. -/
theorem makeAPICall_pause (net : Net) (url : String)
    (hreq : net.newRequest url = true) (hsign : ∀ i, ∃ h, net.sign url i = .ok h)
    (i : Nat) (h1 : 1 ≤ i) (hi : i < maxRetries)
    (hfail : ∀ j, 1 ≤ j → j ≤ i → (net.client url j).failed = true) :
    match net.client url i with
    | .transportError _ =>
      [Event.attempt i, Event.sleep 2, Event.attempt (i + 1)] <:+:
        (makeAPICall net url).2.events
    | .response r =>
      if r.StatusCode = 429 then
        [Event.attempt i, Event.sleep 10, Event.attempt (i + 1)] <:+:
          (makeAPICall net url).2.events
      else
        [Event.attempt i, Event.attempt (i + 1)] <:+: (makeAPICall net url).2.events := by
  have key : (Event.attempt i ::
        (match net.client url i with
          | .transportError _ => [Event.sleep 2]
          | .response r => if r.StatusCode = 429 then [Event.sleep 10] else [])) ++
        [Event.attempt (i + 1)] <:+: (makeAPICall net url).2.events := by
    have hi3 : i = 1 ∨ i = 2 := by
      have : maxRetries = 3 := rfl
      omega
    rcases hi3 with rfl | rfl
    · obtain ⟨s1, e1, v1⟩ := makeAPICallLoop_retry net url 1 [2, 3]
        { resp := none, errorsList := [], events := [], logged := [] } hreq hsign
        (hfail 1 (by decide) (by decide)) (by decide)
      obtain ⟨tail, ht, hcons⟩ := makeAPICallLoop_events net url hreq hsign [2, 3] s1
      obtain ⟨tail1, rfl⟩ := hcons 2 [3] rfl
      have hrun : (makeAPICall net url).2.events = s1.events ++ Event.attempt 2 :: tail1 := by
        rw [makeAPICall, maxRetries]
        simp only [List.range']
        rw [e1, ht]
      rw [hrun, v1]
      exact ⟨[], tail1, by simp⟩
    · obtain ⟨s1, e1, -⟩ := makeAPICallLoop_retry net url 1 [2, 3]
        { resp := none, errorsList := [], events := [], logged := [] } hreq hsign
        (hfail 1 (by decide) (by decide)) (by decide)
      obtain ⟨s2, e2, v2⟩ := makeAPICallLoop_retry net url 2 [3] s1 hreq hsign
        (hfail 2 (by decide) (by decide)) (by decide)
      obtain ⟨tail, ht, hcons⟩ := makeAPICallLoop_events net url hreq hsign [3] s2
      obtain ⟨tail1, rfl⟩ := hcons 3 [] rfl
      have hrun : (makeAPICall net url).2.events = s2.events ++ Event.attempt 3 :: tail1 := by
        rw [makeAPICall, maxRetries]
        simp only [List.range']
        rw [e1, e2, ht]
      rw [hrun, v2]
      exact ⟨s1.events, tail1, by simp⟩
  rcases h : net.client url i with e | r
  · simpa [h] using key
  · by_cases h429 : r.StatusCode = 429
    · simpa [h, h429] using key
    · simpa [h, h429] using key

/-- Witness for the amended C5 on `netFlaky`: 2 seconds after the transport error of attempt 1. -/
theorem makeAPICall_pause_witness :
    netFlaky.newRequest "/api/v2/album" = true ∧
    (∀ j, 1 ≤ j → j ≤ 1 → (netFlaky.client "/api/v2/album" j).failed = true) ∧
    [Event.attempt 1, Event.sleep 2, Event.attempt (1 + 1)] <:+:
      (makeAPICall netFlaky "/api/v2/album").2.events :=
  ⟨rfl, fun j h1 h2 => by
      have hj : j = 1 := by omega
      rw [hj]; decide,
    makeAPICall_pause netFlaky "/api/v2/album" rfl (fun _ => ⟨_, rfl⟩) 1 (by decide) (by decide)
      (fun j h1 h2 => by
        have hj : j = 1 := by omega
        rw [hj]; decide)⟩

/-! ### File names -/

theorem replacementVars_eq_none (a : albumImage) (name : String) :
    replacementVars a name = none ↔ name ∉ knownFields := by
  unfold replacementVars knownFields
  constructor
  · intro h hmem
    simp only [List.mem_cons, List.mem_singleton, List.not_mem_nil, or_false] at hmem
    rcases hmem with rfl | rfl | rfl | rfl <;> simp at h
  · intro h
    simp only [List.mem_cons, List.mem_singleton, List.not_mem_nil, or_false, not_or] at h
    simp [h.1, h.2.1, h.2.2.1, h.2.2.2]

theorem evalField_unknown (a : albumImage) (name : String) (h : name ∉ knownFields) :
    ∃ e, evalField (replacementVars a) name = .error e := by
  have hn := (replacementVars_eq_none a name).2 h
  refine ⟨"map has no entry for key " ++ name, ?_⟩
  simp [evalField, hn]

theorem evalField_known (a : albumImage) (name : String) (h : name ∈ knownFields) :
    ∃ v, evalField (replacementVars a) name = .ok v := by
  rcases hv : replacementVars a name with _ | v
  · exact absurd h ((replacementVars_eq_none a name).1 hv)
  · exact ⟨v, by simp [evalField, hv]⟩

theorem execNode_unknown (a : albumImage) (n : Node) (name : String)
    (hmem : name ∈ n.evaluatedFields) (h : name ∉ knownFields) :
    ∃ e, execNode (replacementVars a) n = .error e := by
  obtain ⟨e, he⟩ := evalField_unknown a name h
  cases n with
  | text s hs => simp [Node.evaluatedFields] at hmem
  | other run => simp [Node.evaluatedFields] at hmem
  | field f =>
    simp only [Node.evaluatedFields, List.mem_singleton] at hmem
    subst hmem
    exact ⟨e, by simp [execNode, he]⟩
  | appendFileName f k =>
    simp only [Node.evaluatedFields, List.mem_cons, List.mem_singleton, List.not_mem_nil,
      or_false] at hmem
    rcases hmem with rfl | rfl
    · exact ⟨e, by simp [execNode, he]⟩
    · rcases hf : evalField (replacementVars a) f with e1 | v
      · exact ⟨e1, by simp [execNode, hf]⟩
      · exact ⟨e, by simp [execNode, hf, he]⟩
  | ifField c t el =>
    simp only [Node.evaluatedFields, List.mem_singleton] at hmem
    subst hmem
    exact ⟨e, by simp [execNode, he]⟩

theorem execList_unknown (a : albumImage) (name : String) (h : name ∉ knownFields) :
    ∀ tmpl : List Node, name ∈ tmpl.flatMap Node.evaluatedFields →
      ∃ e, execList (replacementVars a) tmpl = .error e := by
  intro tmpl
  induction tmpl with
  | nil => intro hmem; simp at hmem
  | cons n rest ih =>
    intro hmem
    simp only [List.flatMap_cons, List.mem_append] at hmem
    rcases hn : execNode (replacementVars a) n with e | v
    · exact ⟨e, by simp [execList, hn]⟩
    · rcases hmem with hmem | hmem
      · obtain ⟨e, he⟩ := execNode_unknown a n name hmem h
        rw [he] at hn
        cases hn
      · obtain ⟨e, he⟩ := ih hmem
        exact ⟨e, by simp [execList, hn, he]⟩

theorem execList_plain (a : albumImage) :
    ∀ tmpl : List Node, (∀ n ∈ tmpl, n.isPlain = true) →
      ((∃ out, execList (replacementVars a) tmpl = .ok out) ↔
        ∀ name ∈ fieldsOfList tmpl, name ∈ knownFields) := by
  intro tmpl
  induction tmpl with
  | nil => intro _; simp [execList, fieldsOfList]
  | cons n rest ih =>
    intro hplain
    have hrest := ih (fun m hm => hplain m (List.mem_cons_of_mem _ hm))
    have hn := hplain n (List.mem_cons_self _ _)
    cases n with
    | text s hs =>
      simp only [fieldsOfList, Node.fields, List.nil_append]
      rw [← hrest]
      constructor
      · rintro ⟨out, hout⟩
        rcases hr : execList (replacementVars a) rest with e | v
        · simp [execList, execNode, hr] at hout
        · exact ⟨v, rfl⟩
      · rintro ⟨v, hv⟩
        exact ⟨s ++ v, by simp [execList, execNode, hv]⟩
    | field f =>
      simp only [fieldsOfList, Node.fields, List.singleton_append, List.mem_cons,
        forall_eq_or_imp]
      rw [← hrest]
      constructor
      · rintro ⟨out, hout⟩
        by_cases hk : f ∈ knownFields
        · refine ⟨hk, ?_⟩
          obtain ⟨v, hv⟩ := evalField_known a f hk
          rcases hr : execList (replacementVars a) rest with e | v1
          · simp [execList, execNode, hv, hr] at hout
          · exact ⟨v1, rfl⟩
        · obtain ⟨e, he⟩ := evalField_unknown a f hk
          simp [execList, execNode, he] at hout
      · rintro ⟨hk, v1, hv1⟩
        obtain ⟨v, hv⟩ := evalField_known a f hk
        exact ⟨htmlEscape v ++ v1, by simp [execList, execNode, hv, hv1]⟩
    | appendFileName f k => simp [Node.isPlain] at hn
    | ifField c t el => simp [Node.isPlain] at hn
    | other run => simp [Node.isPlain] at hn

/-- Claim C7 as stated fails: the template
`if .ImageKey` / `x` / `else` / `.WrongKey` / `end` refers to a field outside the four of
`replacementVars`, and `buildFilename` still returns nil on an item with an image key. -/
theorem buildFilename_unknown_field_counterexample :
    "WrongKey" ∈ fieldsOfList [Node.ifField "ImageKey" [Node.text "x" (by decide)] [Node.field "WrongKey"]] ∧
    "WrongKey" ∉ knownFields ∧
    ((newItem "a.jpg" "K").buildFilename
      [Node.ifField "ImageKey" [Node.text "x" (by decide)] [Node.field "WrongKey"]]).1 = none ∧
    ((newItem "a.jpg" "K").buildFilename
      [Node.ifField "ImageKey" [Node.text "x" (by decide)] [Node.field "WrongKey"]]).2.Name = "x" := by
  refine ⟨by decide, by decide, by rfl, by rfl⟩

/-- A template that is one `other` node executes as the library function it stands for. -/
theorem Execute_other (run : (String → Option String) → Except String String)
    (vars : String → Option String) :
    Template.Execute [Node.other run] vars = run vars := by
  rcases h : run vars with e | out
  · simp [Template.Execute, execList, execNode, h]
  · simp [Template.Execute, execList, execNode, h]

/-- Claim C7, amended. For every item and every parsed template, `buildFilename` returns
nil exactly when the template executes without error and the rendered output is
non-empty, and then `Name()` is the rendered output; this holds whatever the library does
with the template (`other run` for every `run`). Execution fails, whatever the item
holds, as soon as a field other than `FileName`, `ImageKey`, `ArchivedMD5`, `UploadKey` is
evaluated: as a field action, an argument of `appendFileName` or the condition of an `if`
that stands outside every block. A template made only of text without `<` and of field
actions executes without error exactly when all its fields are among the four.
A template rendering the empty string fails, the empty template in particular. -/
theorem buildFilename_result (a : albumImage) (tmpl : Template) :
    ((a.buildFilename tmpl).1 = none ↔
      ∃ out, tmpl.Execute (replacementVars a) = .ok out ∧ out ≠ "") ∧
    (∀ run : (String → Option String) → Except String String,
      ((a.buildFilename [Node.other run]).1 = none ↔
        ∃ out, run (replacementVars a) = .ok out ∧ out ≠ "") ∧
      (∀ out, run (replacementVars a) = .ok out → out ≠ "" →
        (a.buildFilename [Node.other run]).2.Name = out)) ∧
    (∀ out, tmpl.Execute (replacementVars a) = .ok out → (a.buildFilename tmpl).1 = none →
      (a.buildFilename tmpl).2.Name = out) ∧
    (∀ name, name ∈ tmpl.flatMap Node.evaluatedFields → name ∉ knownFields →
      (a.buildFilename tmpl).1 ≠ none) ∧
    ((∀ n ∈ tmpl, n.isPlain = true) →
      ((∃ out, tmpl.Execute (replacementVars a) = .ok out) ↔
        ∀ name ∈ fieldsOfList tmpl, name ∈ knownFields)) ∧
    (tmpl.Execute (replacementVars a) = .ok "" →
      (a.buildFilename tmpl).1 = some "Empty resulting name") ∧
    (a.buildFilename []).1 = some "Empty resulting name" := by
  refine ⟨?_, ?_, ?_, ?_, execList_plain a tmpl, ?_, by rfl⟩
  · rcases h : tmpl.Execute (replacementVars a) with e | out
    · simp [albumImage.buildFilename, h]
    · by_cases ho : out = "" <;> simp [albumImage.buildFilename, h, ho]
  · intro run
    constructor
    · rcases h : run (replacementVars a) with e | out
      · simp [albumImage.buildFilename, Execute_other, h]
      · by_cases ho : out = "" <;> simp [albumImage.buildFilename, Execute_other, h, ho]
    · intro out h ho
      simp [albumImage.buildFilename, Execute_other, h, ho, albumImage.Name]
  · intro out h hnil
    by_cases ho : out = ""
    · simp [albumImage.buildFilename, h, ho] at hnil
    · simp [albumImage.buildFilename, h, ho, albumImage.Name]
  · intro name hmem hk
    obtain ⟨e, he⟩ := execList_unknown a name hk tmpl hmem
    simp [albumImage.buildFilename, Template.Execute, he]
  · intro h
    simp [albumImage.buildFilename, h]

/-- Witness for the amended C7: the test case `wrong with extra chars` of
json_structs_test.go (`.WrongKey` followed by `-`) fails. -/
theorem buildFilename_result_witness :
    "WrongKey" ∈ [Node.field "WrongKey", Node.text "-" (by decide)].flatMap Node.evaluatedFields ∧
    "WrongKey" ∉ knownFields ∧
    ((newItem "FileNameValue" "ImageKeyValue").buildFilename
      [Node.field "WrongKey", Node.text "-" (by decide)]).1 ≠ none :=
  ⟨by decide, by decide,
    (buildFilename_result (newItem "FileNameValue" "ImageKeyValue")
      [Node.field "WrongKey", Node.text "-" (by decide)]).2.2.2.1 "WrongKey" (by decide)
      (by decide)⟩

theorem lastIndex_eq_none (c : Char) :
    ∀ l : List Char, c ∉ l → lastIndex c l = none := by
  intro l
  induction l with
  | nil => intro _; rfl
  | cons x xs ih =>
    intro h
    simp only [List.mem_cons, not_or] at h
    have hx : ¬ x = c := fun e => h.1 e.symm
    simp [lastIndex, ih h.2, hx]

theorem lastIndex_append (c : Char) (ext : List Char) (hext : c ∉ ext) :
    ∀ stem : List Char, lastIndex c (stem ++ c :: ext) = some stem.length := by
  intro stem
  induction stem with
  | nil => simp [lastIndex, lastIndex_eq_none c ext hext]
  | cons x xs ih => simp [lastIndex, ih]

theorem htmlEscapeChars_of_safe :
    ∀ l : List Char, (∀ c ∈ l, htmlReplacement c = none) → htmlEscapeChars l = l := by
  intro l
  induction l with
  | nil => intro _; rfl
  | cons x xs ih =>
    intro h
    have hx := h x (List.mem_cons_self _ _)
    have hxs := ih (fun c hc => h c (List.mem_cons_of_mem _ hc))
    simp [htmlEscapeChars, hx, hxs]

/-- Claim C6 fails on the code. The default fallback template is executed by
`html/template`, which HTML-escapes the result of `appendFileName`: for the file name
`a&b.jpg` and the image key `K` the render succeeds and `NameUnique()` is `a&amp;bK.jpg`,
not `a&b` ++ `K` ++ `.jpg`. -/
theorem default_unique_name_html_escaped :
    buildUniqueFilenameTemplate parseDefaults "" =
      .ok [Node.appendFileName "FileName" "ImageKey"] ∧
    ((newItem "a&b.jpg" "K").buildFilenameUnique
      [Node.appendFileName "FileName" "ImageKey"]).1 = none ∧
    ((newItem "a&b.jpg" "K").buildFilenameUnique
      [Node.appendFileName "FileName" "ImageKey"]).2.NameUnique = "a&amp;bK.jpg" ∧
    ((newItem "a&b.jpg" "K").buildFilenameUnique
      [Node.appendFileName "FileName" "ImageKey"]).2.NameUnique ≠ "a&b" ++ "K" ++ ".jpg" := by
  refine ⟨by rfl, by rfl, by rfl, by decide⟩

/-- The two examples of the spec and of json_structs_test.go render as stated. -/
theorem default_unique_name_examples :
    ((newItem "photo.jpg" "AbC123").buildFilenameUnique
      [Node.appendFileName "FileName" "ImageKey"]).2.NameUnique = "photoAbC123.jpg" ∧
    ((newItem "FileNameValue.jpg" "ImageKeyValue").buildFilenameUnique
      [Node.appendFileName "FileName" "ImageKey"]).2.NameUnique =
        "FileNameValueImageKeyValue.jpg" := by
  refine ⟨by rfl, by rfl⟩

/-- A file name without a dot makes `appendFileName` fail: the render returns an error
and `NameUnique()` falls back to the image key. -/
theorem default_unique_name_without_dot :
    ((newItem "photo" "AbC123").buildFilenameUnique
      [Node.appendFileName "FileName" "ImageKey"]).1 =
        some "runtime error: slice bounds out of range [:-1]" ∧
    ((newItem "photo" "AbC123").buildFilenameUnique
      [Node.appendFileName "FileName" "ImageKey"]).2.NameUnique = "AbC123" := by
  refine ⟨by rfl, by rfl⟩

/-- Away from the characters the HTML escaper rewrites, the default fallback render is the
file name with the image key inserted before the last dot. -/
theorem default_unique_name_of_safe (a : albumImage) (stem ext : List Char)
    (hname : a.FileName.data = stem ++ '.' :: ext) (hext : '.' ∉ ext)
    (hsafe : ∀ c ∈ a.FileName.data, htmlReplacement c = none)
    (hsafeKey : ∀ c ∈ a.ImageKey.data, htmlReplacement c = none) :
    (a.buildFilenameUnique [Node.appendFileName "FileName" "ImageKey"]).1 = none ∧
    (a.buildFilenameUnique [Node.appendFileName "FileName" "ImageKey"]).2.NameUnique =
      ⟨stem ++ a.ImageKey.data ++ '.' :: ext⟩ := by
  have hidx := lastIndex_append '.' ext hext stem
  have happ : appendFileName a.FileName a.ImageKey =
      .ok ⟨stem ++ (a.ImageKey.data ++ '.' :: ext)⟩ := by
    unfold appendFileName
    rw [hname, hidx]
    simp [String.ext_iff]
  have hsafeAll : ∀ c ∈ stem ++ (a.ImageKey.data ++ '.' :: ext),
      htmlReplacement c = none := by
    intro c hc
    simp only [List.mem_append, List.mem_cons] at hc
    rcases hc with hc | hc | hc | hc
    · exact hsafe c (by simp [hname, hc])
    · exact hsafeKey c hc
    · exact hsafe c (by simp [hname, hc])
    · exact hsafe c (by simp [hname, hc])
  have hesc : htmlEscape ⟨stem ++ (a.ImageKey.data ++ '.' :: ext)⟩ =
      ⟨stem ++ (a.ImageKey.data ++ '.' :: ext)⟩ := by
    simp only [htmlEscape]
    rw [htmlEscapeChars_of_safe _ hsafeAll]
  have hexec : Template.Execute [Node.appendFileName "FileName" "ImageKey"]
      (replacementVars a) = .ok ⟨stem ++ (a.ImageKey.data ++ '.' :: ext)⟩ := by
    simp only [Template.Execute, execList, execNode, evalField, replacementVars]
    simp only [if_true, String.reduceEq, if_false, happ, hesc, String.append_empty]
  have hne : (⟨stem ++ (a.ImageKey.data ++ '.' :: ext)⟩ : String) ≠ "" := by
    simp [String.ext_iff]
  rw [List.append_assoc]
  simp only [albumImage.buildFilenameUnique, hexec, hne, albumImage.NameUnique]
  simp [hne]

/-- Claim C8 fails on the code. The default primary template is executed by
`html/template`, which HTML-escapes the value of the field: for the file name `a&b.jpg` the
render succeeds and `Name()` is `a&amp;b.jpg`, not the file name. -/
theorem default_name_html_escaped :
    buildFilenameTemplate parseDefaults "" = .ok [Node.field "FileName"] ∧
    ((newItem "a&b.jpg" "K").buildFilename [Node.field "FileName"]).1 = none ∧
    ((newItem "a&b.jpg" "K").buildFilename [Node.field "FileName"]).2.Name = "a&amp;b.jpg" ∧
    ((newItem "a&b.jpg" "K").buildFilename [Node.field "FileName"]).2.Name ≠
      (newItem "a&b.jpg" "K").FileName := by
  refine ⟨by rfl, by rfl, by rfl, by decide⟩

/-- Away from the characters the HTML escaper rewrites, the default primary render of a
non-empty file name is the file name itself. -/
theorem default_name_of_safe (a : albumImage) (hne : a.FileName ≠ "")
    (hsafe : ∀ c ∈ a.FileName.data, htmlReplacement c = none) :
    (a.buildFilename [Node.field "FileName"]).1 = none ∧
    (a.buildFilename [Node.field "FileName"]).2.Name = a.FileName := by
  have hesc : htmlEscape a.FileName = a.FileName := by
    simp only [htmlEscape]
    rw [htmlEscapeChars_of_safe _ hsafe]
  have hexec : Template.Execute [Node.field "FileName"] (replacementVars a) =
      .ok a.FileName := by
    simp [Template.Execute, execList, execNode, evalField, replacementVars, hesc]
  simp [albumImage.buildFilename, hexec, hne, albumImage.Name]

/-- Claim C9. For every item with a non-empty `ImageKey`, whatever its cached fields hold,
`Name()` and `NameUnique()` are non-empty: `Name()` is `builtFilename` if non-empty, else
`FileName` if non-empty, else `ImageKey`; `NameUnique()` is `builtFilenameUnique` if
non-empty, else `ImageKey`. This also holds after any render, successful or failed. -/
theorem name_never_empty (a : albumImage) (hkey : a.ImageKey ≠ "") :
    a.Name ≠ "" ∧ a.NameUnique ≠ "" ∧
    a.Name = (if a.builtFilename ≠ "" then a.builtFilename
              else if a.FileName ≠ "" then a.FileName else a.ImageKey) ∧
    a.NameUnique = (if a.builtFilenameUnique ≠ "" then a.builtFilenameUnique
                    else a.ImageKey) ∧
    (∀ tmpl : Template, (a.buildFilename tmpl).2.Name ≠ "" ∧
      (a.buildFilename tmpl).2.NameUnique ≠ "") ∧
    (∀ tmpl : Template, (a.buildFilenameUnique tmpl).2.Name ≠ "" ∧
      (a.buildFilenameUnique tmpl).2.NameUnique ≠ "") := by
  have hname : ∀ b : albumImage, b.ImageKey ≠ "" → b.Name ≠ "" ∧ b.NameUnique ≠ "" := by
    intro b hb
    constructor
    · unfold albumImage.Name
      split_ifs with h1 h2
      · exact h1
      · exact h2
      · exact hb
    · unfold albumImage.NameUnique
      split_ifs with h1
      · exact h1
      · exact hb
  refine ⟨(hname a hkey).1, (hname a hkey).2, rfl, rfl, ?_, ?_⟩
  · intro tmpl
    apply hname
    unfold albumImage.buildFilename
    rcases tmpl.Execute (replacementVars a) with e | out
    · exact hkey
    · by_cases ho : out = "" <;> simp [ho, hkey]
  · intro tmpl
    apply hname
    unfold albumImage.buildFilenameUnique
    rcases tmpl.Execute (replacementVars a) with e | out
    · exact hkey
    · by_cases ho : out = "" <;> simp [ho, hkey]

/-- Witness for C9: an item with neither a rendered name nor a file name. -/
theorem name_never_empty_witness :
    (newItem "" "AbC123").ImageKey ≠ "" ∧
    (newItem "" "AbC123").Name ≠ "" ∧ (newItem "" "AbC123").NameUnique ≠ "" :=
  ⟨by decide, (name_never_empty (newItem "" "AbC123") (by decide)).1,
    (name_never_empty (newItem "" "AbC123") (by decide)).2.1⟩

/-! ### The album loop -/

theorem runAlbum_cfg {W : Type} (env : Env W) (w : Worker W) (album : album) :
    (w.runAlbum env album).cfg = w.cfg := by
  unfold Worker.runAlbum
  dsimp only
  split
  · rfl
  · split <;> rfl

theorem runAlbum_createdFolders {W : Type} (env : Env W) (w : Worker W) (album : album) :
    createdFolders (w.runAlbum env album).calls =
      createdFolders w.calls ++ [w.folder env album] := by
  unfold Worker.runAlbum
  dsimp only
  split
  · simp [createdFolders, List.filterMap_append]
  · split <;> simp [createdFolders, List.filterMap_append]

/-- What the iteration does when the folder cannot be created. -/
theorem runAlbum_createFolder_failed {W : Type} (env : Env W) (w : Worker W) (album : album)
    (hfail : (createFolder env w.world (w.folder env album)).1 ≠ none) :
    (w.runAlbum env album).errors = w.errors + 1 ∧
    (w.runAlbum env album).calls = w.calls ++ [Call.createFolder (w.folder env album)] := by
  unfold Worker.runAlbum
  dsimp only
  split
  · exact ⟨rfl, rfl⟩
  · rename_i w1 h
    rw [h] at hfail
    exact absurd rfl hfail

theorem runAlbums_cfg {W : Type} (env : Env W) :
    ∀ (albums : List album) (w : Worker W), (w.runAlbums env albums).cfg = w.cfg := by
  intro albums
  induction albums with
  | nil => intro w; rfl
  | cons x rest ih =>
    intro w
    rw [Worker.runAlbums, ih, runAlbum_cfg]

theorem runAlbums_append {W : Type} (env : Env W) :
    ∀ (l1 l2 : List album) (w : Worker W),
      w.runAlbums env (l1 ++ l2) = (w.runAlbums env l1).runAlbums env l2 := by
  intro l1
  induction l1 with
  | nil => intro l2 w; rfl
  | cons x rest ih =>
    intro l2 w
    simp only [List.cons_append, Worker.runAlbums]
    exact ih l2 _

theorem runAlbums_createdFolders {W : Type} (env : Env W) :
    ∀ (albums : List album) (w : Worker W),
      createdFolders (w.runAlbums env albums).calls =
        createdFolders w.calls ++ albums.map (w.folder env) := by
  intro albums
  induction albums with
  | nil => intro w; simp [Worker.runAlbums]
  | cons x rest ih =>
    intro w
    rw [Worker.runAlbums, ih, runAlbum_createdFolders]
    have hf : (w.runAlbum env x).folder env = w.folder env := by
      funext y
      simp [Worker.folder, runAlbum_cfg]
    simp [hf]

/-- The loop body of `Run` does to one album what `AlbumStep` says. -/
theorem runAlbum_albumStep {W : Type} (env : Env W) (s : Worker W) (a : album) :
    AlbumStep env s a (s.runAlbum env a) := by
  unfold AlbumStep Worker.runAlbum Worker.folder
  dsimp only
  refine ⟨?_, ?_, ?_, ?_⟩
  · split
    · rfl
    · split <;> rfl
  · intro err world1 h
    rw [h]
    exact ⟨rfl, rfl, rfl⟩
  · intro world1 err world2 h h2
    rw [h]
    dsimp only
    rw [h2]
    exact ⟨rfl, rfl, by simp⟩
  · intro world1 images world2 h h2
    rw [h]
    dsimp only
    rw [h2]
    exact ⟨rfl, rfl, by simp⟩

/-- The loop of `Run` processes the albums of its list one after the other, in order. -/
theorem runAlbums_albumsProcessed {W : Type} (env : Env W) :
    ∀ (albums : List album) (s : Worker W),
      AlbumsProcessed env s albums (s.runAlbums env albums) := by
  intro albums
  induction albums with
  | nil => intro s; rfl
  | cons a rest ih =>
    intro s
    exact ⟨s.runAlbum env a, runAlbum_albumStep env s a, ih _⟩

/-- Claim C10. In `Run`, once the current user and the album list `pre ++ X :: post` are
fetched, if creating the destination folder of album `X` fails then the iteration for `X`
adds exactly one to the error counter and calls nothing but `createFolder` (neither
`albumImages` nor `saveImages`): the state of disk and service after `X` is the one
`createFolder` left. The run then goes on with the albums of `post`, in order: the worker
`Run` ends with is reached from the state left by `X` by processing every album of
`post` as `AlbumStep` says (folder, image list, saving), the albums of `pre` having been
processed the same way before `X`, and the folders it tries to create after `X` are
those of `post`, in list order. -/
theorem Run_album_isolation {W : Type} (env : Env W) (w0 wl : Worker W)
    (pre post : List album) (X : album)
    (hfetch : w0.fetchAlbums env = (.ok (pre ++ X :: post), wl))
    (hfail : (createFolder env (wl.runAlbums env pre).world
      ((wl.runAlbums env pre).folder env X)).1 ≠ none) :
    ((wl.runAlbums env pre).runAlbum env X).errors = (wl.runAlbums env pre).errors + 1 ∧
    ((wl.runAlbums env pre).runAlbum env X).calls =
      (wl.runAlbums env pre).calls ++ [Call.createFolder (wl.folder env X)] ∧
    (w0.Run env).2 = ((wl.runAlbums env pre).runAlbum env X).runAlbums env post ∧
    createdFolders (w0.Run env).2.calls =
      createdFolders ((wl.runAlbums env pre).runAlbum env X).calls ++
        post.map (wl.folder env) ∧
    ((wl.runAlbums env pre).runAlbum env X).world =
      (createFolder env (wl.runAlbums env pre).world (wl.folder env X)).2 ∧
    AlbumsProcessed env wl pre (wl.runAlbums env pre) ∧
    AlbumsProcessed env ((wl.runAlbums env pre).runAlbum env X) post (w0.Run env).2 := by
  have hfolder : (wl.runAlbums env pre).folder env X = wl.folder env X := by
    simp [Worker.folder, runAlbums_cfg]
  have hrun : (w0.Run env).2 = ((wl.runAlbums env pre).runAlbum env X).runAlbums env post := by
    unfold Worker.Run
    rw [hfetch]
    simp only [runAlbums_append, Worker.runAlbums]
    split_ifs <;> rfl
  obtain ⟨herr, hcalls⟩ := runAlbum_createFolder_failed env (wl.runAlbums env pre) X hfail
  have hworld : ((wl.runAlbums env pre).runAlbum env X).world =
      (createFolder env (wl.runAlbums env pre).world (wl.folder env X)).2 := by
    rw [← hfolder]
    rcases hc : createFolder env (wl.runAlbums env pre).world
      ((wl.runAlbums env pre).folder env X) with ⟨_ | err, world1⟩
    · rw [hc] at hfail
      exact absurd rfl hfail
    · exact ((runAlbum_albumStep env (wl.runAlbums env pre) X).2.1 err world1 hc).1
  refine ⟨herr, by rw [hcalls, hfolder], hrun, ?_, hworld,
    runAlbums_albumsProcessed env pre wl, ?_⟩
  · rw [hrun, runAlbums_createdFolders]
    have hf : ((wl.runAlbums env pre).runAlbum env X).folder env = wl.folder env := by
      funext y
      simp [Worker.folder, runAlbum_cfg, runAlbums_cfg]
    rw [hf]
  · rw [hrun]
    exact runAlbums_albumsProcessed env post _

/-- Witness for C10 on `journalEnv`, whose state records what each operation was asked to
do: the folder of the first album cannot be created, nothing else is asked for that
album, and the second album gets its folder, its image list and its images saved. -/
theorem Run_album_isolation_witness :
    (createFolder journalEnv ((journalWorker.fetchAlbums journalEnv).2.runAlbums journalEnv
      []).world (((journalWorker.fetchAlbums journalEnv).2.runAlbums journalEnv []).folder
        journalEnv { URLPath := "/broken", AlbumImagesURI := "/api/v2/album/1!images" })).1 ≠
      none ∧
    (journalWorker.Run journalEnv).2.errors = 1 ∧
    (journalWorker.Run journalEnv).2.world =
      ["currentUser", "userAlbums", "mkdirAll /bk/broken", "mkdirAll /bk/good",
       "albumImages /api/v2/album/2!images", "saveImages /bk/good"] ∧
    (((journalWorker.fetchAlbums journalEnv).2.runAlbums journalEnv []).runAlbum journalEnv
      { URLPath := "/broken", AlbumImagesURI := "/api/v2/album/1!images" }).world =
      (createFolder journalEnv
        ((journalWorker.fetchAlbums journalEnv).2.runAlbums journalEnv []).world
        ((journalWorker.fetchAlbums journalEnv).2.folder journalEnv
          { URLPath := "/broken", AlbumImagesURI := "/api/v2/album/1!images" })).2 :=
  ⟨by decide, by decide, by decide,
    (Run_album_isolation journalEnv journalWorker (journalWorker.fetchAlbums journalEnv).2 []
      [{ URLPath := "/good", AlbumImagesURI := "/api/v2/album/2!images" }]
      { URLPath := "/broken", AlbumImagesURI := "/api/v2/album/1!images" }
      rfl (by decide)).2.2.2.2.1⟩


/-! ### The result of a run -/

/-- Claim C11. When resolving the current user and fetching the album list both succeed,
`Run` ends in the state the loop over the albums leaves, and it returns a non-nil error
exactly when the error counter is nonzero in that state; the error then reads
`Completed with N errors, please check logs` with `N` the counter in decimal, and with a
zero counter `Run` returns nil. -/
theorem Run_reports_error_count {W : Type} (env : Env W) (w0 wl : Worker W)
    (albums : List album) (hfetch : w0.fetchAlbums env = (.ok albums, wl)) :
    (w0.Run env).2 = wl.runAlbums env albums ∧
    ((w0.Run env).1 ≠ none ↔ (wl.runAlbums env albums).errors ≠ 0) ∧
    ((wl.runAlbums env albums).errors ≠ 0 →
      (w0.Run env).1 = some ("Completed with " ++ toString (wl.runAlbums env albums).errors ++
        " errors, please check logs")) ∧
    ((wl.runAlbums env albums).errors = 0 → (w0.Run env).1 = none) := by
  unfold Worker.Run
  rw [hfetch]
  dsimp only
  by_cases h : (wl.runAlbums env albums).errors > 0
  · have hne : (wl.runAlbums env albums).errors ≠ 0 := by omega
    simp [h, hne]
  · have hz : (wl.runAlbums env albums).errors = 0 := by omega
    simp [hz]

/-- Witness for C11 on `sampleEnv`: one album folder cannot be created, the run reports one
error. -/
theorem Run_reports_error_count_witness :
    sampleWorker.fetchAlbums sampleEnv =
      (.ok [{ URLPath := "/broken", AlbumImagesURI := "/api/v2/album/1!images" },
            { URLPath := "/good", AlbumImagesURI := "/api/v2/album/2!images" }],
        (sampleWorker.fetchAlbums sampleEnv).2) ∧
    (sampleWorker.Run sampleEnv).2.errors = 1 ∧
    (sampleWorker.Run sampleEnv).1 ≠ none ∧
    (sampleWorker.Run sampleEnv).1 = some "Completed with 1 errors, please check logs" :=
  have h := Run_reports_error_count sampleEnv sampleWorker
    (sampleWorker.fetchAlbums sampleEnv).2
    [{ URLPath := "/broken", AlbumImagesURI := "/api/v2/album/1!images" },
     { URLPath := "/good", AlbumImagesURI := "/api/v2/album/2!images" }] rfl
  ⟨rfl, by decide, h.2.1.2 (by decide), by decide⟩

/-! ### Construction of the worker -/

/-- A parse error of the fallback template makes `New` return that error and no worker. -/
theorem New_unique_parse_error {W : Type} (disk : Disk)
    (parse : List String → String → Except String Template) (world : W) (cfg : Conf)
    (e : String) (hvalid : cfg.validate disk = none)
    (hparse : buildUniqueFilenameTemplate parse cfg.FilenamesUnique = .error e) :
    New disk parse world cfg = (none, some e) := by
  simp [New, hvalid, hparse, goReturn]

/-- A parse error of the primary template is overwritten by the result of the fallback
template: when the latter parses, `New` returns a worker whose `filenameTmpl` is nil,
and a nil error. -/
theorem New_primary_parse_error_dropped {W : Type} (disk : Disk)
    (parse : List String → String → Except String Template) (world : W) (cfg : Conf)
    (e : String) (tmplUnique : Template) (hvalid : cfg.validate disk = none)
    (hparse : buildFilenameTemplate parse cfg.Filenames = .error e)
    (hparseU : buildUniqueFilenameTemplate parse cfg.FilenamesUnique = .ok tmplUnique) :
    New disk parse world cfg =
      (some { cfg := cfg, errors := 0, filenameTmpl := none,
              filenameUniqueTmpl := some tmplUnique, world := world, calls := [] }, none) := by
  simp [New, hvalid, hparse, hparseU, goReturn]

/-- Claim C12 fails on the code. For the valid configuration `unclosedConf`, whose primary
template text is an unclosed action, `buildFilenameTemplate` returns a parse error, yet
`New` returns a nil error and a worker whose `filenameTmpl` is nil. -/
theorem New_returns_worker_without_primary_template :
    unclosedConf.validate sampleDisk = none ∧
    buildFilenameTemplate parseUnclosed unclosedConf.Filenames =
      .error "template: image_filename:1: unclosed action" ∧
    (New sampleDisk parseUnclosed () unclosedConf).2 = none ∧
    (New sampleDisk parseUnclosed () unclosedConf).1.map (fun w => w.filenameTmpl) =
      some none ∧
    (New sampleDisk parseUnclosed () unclosedConf).1.map (fun w => w.filenameUniqueTmpl) =
      some (some [Node.appendFileName "FileName" "ImageKey"]) := by
  refine ⟨by rfl, by rfl, by rfl, by rfl, by rfl⟩

end Smugmug
